import Mathlib

/-!
Verification of the keyword-based sentiment classifier and review
service of `src/app.py` (a small Flask review service backed by SQLite).

The Python code is shallowly embedded:
* strings are Lean `String`s, with substring containment (`in`) modelled
  on the character list (`String.data`), matching Python's code-point
  semantics;
* `str.lower()` is modelled for the alphabets the lexicons use
  (ASCII letters and the Cyrillic block А..Я, Ё);
* `str.strip()` is modelled by dropping whitespace from both ends of the
  character list;
* the SQLite table is a list of rows in rowid order together with the
  next AUTOINCREMENT id; `datetime.utcnow()` is an external input and is
  passed as an explicit argument;
* the dynamically-typed `text` argument of `create_review` is a sum type
  distinguishing a Python `str` from any non-string value (including a
  missing/None field), and `raise ValueError` is `Except.error`.
-/

namespace App

/-- Model of Python `str.lower()` on one character, restricted to the
alphabets occurring in the lexicons: ASCII A..Z and Cyrillic А..Я and Ё
are lowered, every other character is unchanged. -/
def pyLowerChar (c : Char) : Char :=
  if 0x41 ≤ c.toNat ∧ c.toNat ≤ 0x5A then Char.ofNat (c.toNat + 0x20)
  else if 0x410 ≤ c.toNat ∧ c.toNat ≤ 0x42F then Char.ofNat (c.toNat + 0x20)
  else if c.toNat = 0x401 then Char.ofNat 0x451
  else c

/-- Model of Python `str.lower()` (see `pyLowerChar`). -/
def pyLower (s : String) : String := ⟨s.data.map pyLowerChar⟩

/-- Model of Python `str.strip()`: drop whitespace from both ends. -/
def pyStrip (l : List Char) : List Char :=
  ((l.dropWhile Char.isWhitespace).reverse.dropWhile Char.isWhitespace).reverse

/-- Model of Python `needle in hay` on strings: substring containment
over code points. -/
def containsSub (hay needle : String) : Bool :=
  decide (needle.data <:+: hay.data)

/-- `any(w in hay for w in ws)`. -/
def containsAny (hay : String) (ws : List String) : Bool :=
  ws.any (fun w => containsSub hay w)

/-- `SentimentAnalyzer.POSITIVE_WORDS` (src/app.py lines 13-18). -/
def POSITIVE_WORDS : List String :=
  ["хорош", "хорошо", "отличн", "прекрасн", "люблю",
   "нравится", "супер", "класс", "восхитительн", "лучш",
   "замечательн", "превосходн", "удобн", "рекомендую", "доволен",
   "великолепн", "безупречн", "идеальн", "прекрасно", "отлично"]

/-- `SentimentAnalyzer.NEGATIVE_WORDS` (src/app.py lines 19-24). -/
def NEGATIVE_WORDS : List String :=
  ["плох", "плохо", "ужасн", "ненавиж", "отвратительн",
   "кошмар", "разочарован", "неудобн", "худш", "недостаток",
   "проблем", "недостат", "недоволен", "некачествен", "ужасно",
   "недоволь", "отвратно", "отвратительно", "мерзост", "неприятн",
   "не нравится"]

/-- The local `negative_phrases` set of `SentimentAnalyzer.analyze`
(src/app.py line 37). -/
def negative_phrases : List String := ["не нравится", "не люблю", "не хочу"]

/-- `SentimentAnalyzer.analyze` (src/app.py lines 26-45).  The
`isinstance(text, str)` precondition is enforced by the type. -/
def analyze (text : String) : String :=
  if (pyStrip text.data).isEmpty then "neutral"
  else
    let text_lower := pyLower text
    if containsAny text_lower negative_phrases then "negative"
    else if containsAny text_lower POSITIVE_WORDS then "positive"
    else if containsAny text_lower NEGATIVE_WORDS then "negative"
    else "neutral"

/-- One row of the `reviews` table (src/app.py lines 68-75).  `id` is the
SQLite rowid (INTEGER), the other columns are TEXT. -/
structure Review where
  id : Int
  text : String
  sentiment : String
  created_at : String
deriving DecidableEq, Repr

/-- The `reviews` table: rows in rowid (insertion) order, plus the next
AUTOINCREMENT id.  A fresh database starts at `nextId = 1`. -/
structure RepoState where
  reviews : List Review
  nextId : Int
deriving DecidableEq, Repr

/-- The state right after `ReviewRepository._init_db` on a fresh file. -/
def initState : RepoState := ⟨[], 1⟩

/-- `ReviewRepository.create` (src/app.py lines 77-100): INSERT a row,
return the record built from `cursor.lastrowid`.  `created_at`
(`datetime.utcnow().isoformat()`) is an external input passed in. -/
def repo_create (text sentiment created_at : String) (s : RepoState) :
    Review × RepoState :=
  let r : Review := ⟨s.nextId, text, sentiment, created_at⟩
  (r, ⟨s.reviews ++ [r], s.nextId + 1⟩)

/-- `ReviewRepository.find_all` (src/app.py lines 102-120): SELECT all
rows, adding `WHERE sentiment = ?` only when the Python value
`sentiment` is truthy (not `None` and not the empty string). -/
def find_all (sentiment : Option String) (s : RepoState) : List Review :=
  match sentiment with
  | none => s.reviews
  | some f => if f.isEmpty then s.reviews
              else s.reviews.filter (fun r => r.sentiment == f)

/-- `ReviewRepository.delete` (src/app.py lines 122-136): DELETE the rows
whose id matches; return `cursor.rowcount > 0`. -/
def repo_delete (review_id : Int) (s : RepoState) : Bool × RepoState :=
  (s.reviews.any (fun r => r.id == review_id),
   ⟨s.reviews.filter (fun r => !(r.id == review_id)), s.nextId⟩)

/-- A Python value passed as the `text` argument: either a `str` or any
non-string value (`None`, a number, a missing JSON field propagated as
such, ...). -/
inductive PyVal where
  | str (s : String)
  | nonStr
deriving DecidableEq, Repr

/-- `ReviewService.create_review` (src/app.py lines 156-172):
`raise ValueError("Text must be a non-empty string")` when the input is
not a `str` or is blank after stripping; otherwise classify and persist. -/
def create_review (text : PyVal) (created_at : String) (s : RepoState) :
    Except String (Review × RepoState) :=
  match text with
  | .nonStr => .error "Text must be a non-empty string"
  | .str t =>
      if (pyStrip t.data).isEmpty then .error "Text must be a non-empty string"
      else .ok (repo_create t (analyze t) created_at s)

/-- `ReviewService.get_reviews` (src/app.py lines 174-184): delegates to
`find_all` unchanged. -/
def get_reviews (sentiment : Option String) (s : RepoState) : List Review :=
  find_all sentiment s

/-- `ReviewService.delete_review` (src/app.py lines 186-196): delegates
to `ReviewRepository.delete` unchanged — no validation happens here. -/
def delete_review (review_id : Int) (s : RepoState) : Bool × RepoState :=
  repo_delete review_id s

/-- The DELETE /reviews/{id} route handler (src/app.py lines 257-299),
reduced to its HTTP status code: 400 when `review_id <= 0` (before any
service call), else 200 when the service deleted a row and 404 when not.
Storage failures (the 500 branch) are outside the embedded state model. -/
def route_delete_review (review_id : Int) (s : RepoState) :
    Nat × RepoState :=
  if review_id ≤ 0 then (400, s)
  else
    let d := delete_review review_id s
    if d.1 then (200, d.2) else (404, d.2)

/-- One service-level operation, as the transitions it induces on the
store: a successful create, a failed create (state unchanged), a read
(state unchanged), or a delete. -/
inductive Step : RepoState → RepoState → Prop where
  | createOk (v : PyVal) (now : String) (r : Review) {s s' : RepoState} :
      create_review v now s = .ok (r, s') → Step s s'
  | createFail (v : PyVal) (now : String) (e : String) {s : RepoState} :
      create_review v now s = .error e → Step s s
  | read (sentiment : Option String) {s : RepoState} : Step s s
  | delete (review_id : Int) {s : RepoState} :
      Step s (delete_review review_id s).2

/-- States reachable from a fresh database by service operations. -/
inductive Reachable : RepoState → Prop where
  | init : Reachable initState
  | step {s s' : RepoState} : Reachable s → Step s s' → Reachable s'

/-! ### Helper lemmas about the embedded string primitives -/

lemma pyStrip_eq_nil_iff (l : List Char) :
    pyStrip l = [] ↔ ∀ c ∈ l, c.isWhitespace = true := by
  unfold pyStrip
  rw [List.reverse_eq_nil_iff, List.dropWhile_eq_nil_iff]
  constructor
  · intro h
    have hnil : l.dropWhile Char.isWhitespace = [] := by
      by_contra hne
      have hhead := List.head_dropWhile_not Char.isWhitespace l hne
      have hmem : (l.dropWhile Char.isWhitespace).head hne ∈
          (l.dropWhile Char.isWhitespace).reverse := by
        rw [List.mem_reverse]; exact List.head_mem hne
      rw [h _ hmem] at hhead
      exact Bool.true_eq_false.mp hhead
    exact List.dropWhile_eq_nil_iff.mp hnil
  · intro h x hx
    rw [List.mem_reverse] at hx
    exact h x ((List.dropWhile_sublist _).subset hx)

lemma pyLowerChar_ws (c : Char) (h : c.isWhitespace = true) :
    pyLowerChar c = c := by
  simp only [Char.isWhitespace, Bool.or_eq_true, decide_eq_true_eq] at h
  rcases h with ((h | h) | h) | h <;> (subst h; rfl)

/-- If a lowered text contains a word one of whose characters is not
whitespace, the original text does not strip to the empty string. -/
lemma strip_ne_nil_of_containsSub (t w : String)
    (hw : ∃ c ∈ w.data, c.isWhitespace = false)
    (h : containsSub (pyLower t) w = true) :
    (pyStrip t.data).isEmpty = false := by
  obtain ⟨c, hcw, hcws⟩ := hw
  have hinf : w.data <:+: (pyLower t).data := decide_eq_true_iff.mp h
  have hcl : c ∈ (pyLower t).data := hinf.subset hcw
  have hcl' : c ∈ t.data.map pyLowerChar := hcl
  obtain ⟨c₀, hc₀, hc₀l⟩ := List.mem_map.mp hcl'
  have hc₀ws : c₀.isWhitespace = false := by
    by_contra hcon
    have : c₀.isWhitespace = true := by
      cases hb : c₀.isWhitespace with
      | false => exact absurd hb hcon
      | true => rfl
    rw [pyLowerChar_ws c₀ this] at hc₀l
    subst hc₀l
    rw [this] at hcws
    exact Bool.true_eq_false.mp hcws
  rw [Bool.eq_false_iff]
  intro hcon
  have hnil : pyStrip t.data = [] := List.isEmpty_iff.mp hcon
  have := (pyStrip_eq_nil_iff t.data).mp hnil c₀ hc₀
  rw [this] at hc₀ws
  exact Bool.true_eq_false.mp hc₀ws

lemma strip_ne_nil_of_containsAny (t : String) (ws : List String)
    (hws : ∀ w ∈ ws, ∃ c ∈ w.data, c.isWhitespace = false)
    (h : containsAny (pyLower t) ws = true) :
    (pyStrip t.data).isEmpty = false := by
  obtain ⟨w, hwmem, hwc⟩ := List.any_eq_true.mp h
  exact strip_ne_nil_of_containsSub t w (hws w hwmem) hwc

lemma negative_phrases_nonws :
    ∀ w ∈ negative_phrases, ∃ c ∈ w.data, c.isWhitespace = false := by
  decide

lemma POSITIVE_WORDS_nonws :
    ∀ w ∈ POSITIVE_WORDS, ∃ c ∈ w.data, c.isWhitespace = false := by
  decide

lemma NEGATIVE_WORDS_nonws :
    ∀ w ∈ NEGATIVE_WORDS, ∃ c ∈ w.data, c.isWhitespace = false := by
  decide

/-! ### Helper lemmas about the classifier -/

lemma analyze_of_phrase (t : String)
    (h : containsAny (pyLower t) negative_phrases = true) :
    analyze t = "negative" := by
  have hstrip := strip_ne_nil_of_containsAny t negative_phrases
    negative_phrases_nonws h
  simp [analyze, hstrip, h]

lemma analyze_of_positive (t : String)
    (hph : containsAny (pyLower t) negative_phrases = false)
    (h : containsAny (pyLower t) POSITIVE_WORDS = true) :
    analyze t = "positive" := by
  have hstrip := strip_ne_nil_of_containsAny t POSITIVE_WORDS
    POSITIVE_WORDS_nonws h
  simp [analyze, hstrip, hph, h]

lemma analyze_of_negative (t : String)
    (hph : containsAny (pyLower t) negative_phrases = false)
    (hpos : containsAny (pyLower t) POSITIVE_WORDS = false)
    (h : containsAny (pyLower t) NEGATIVE_WORDS = true) :
    analyze t = "negative" := by
  have hstrip := strip_ne_nil_of_containsAny t NEGATIVE_WORDS
    NEGATIVE_WORDS_nonws h
  simp [analyze, hstrip, hph, hpos, h]

lemma analyze_mem (t : String) :
    analyze t = "positive" ∨ analyze t = "negative" ∨
      analyze t = "neutral" := by
  simp only [analyze]
  split_ifs <;> simp

/-! ### Store invariants -/

/-- The three enumerated sentiment values. -/
def sentiments : List String := ["positive", "negative", "neutral"]

/-- Invariant of the store: a positive AUTOINCREMENT counter, every row
with non-empty text, an enumerated sentiment and an id in `(0, nextId)`,
and rows strictly ordered by id. -/
def Inv (s : RepoState) : Prop :=
  0 < s.nextId ∧
  (∀ r ∈ s.reviews,
    r.text ≠ "" ∧ r.sentiment ∈ sentiments ∧ 0 < r.id ∧ r.id < s.nextId) ∧
  s.reviews.Pairwise (fun a b => a.id < b.id)

lemma inv_init : Inv initState := by
  refine ⟨by norm_num [initState], by simp [initState], by simp [initState]⟩

lemma create_review_ok_elim {v : PyVal} {now : String} {s : RepoState}
    {r : Review} {s' : RepoState} (h : create_review v now s = .ok (r, s')) :
    ∃ t, v = .str t ∧ (pyStrip t.data).isEmpty = false ∧
      r = ⟨s.nextId, t, analyze t, now⟩ ∧
      s' = ⟨s.reviews ++ [r], s.nextId + 1⟩ := by
  cases v with
  | nonStr => simp [create_review] at h
  | str t =>
    refine ⟨t, rfl, ?_⟩
    cases hs : (pyStrip t.data).isEmpty with
    | true => simp [create_review, hs] at h
    | false =>
      simp [create_review, hs, repo_create] at h
      obtain ⟨hr, hs'⟩ := h
      exact ⟨rfl, hr.symm, by rw [← hs', hr]⟩

lemma text_ne_empty_of_strip (t : String)
    (h : (pyStrip t.data).isEmpty = false) : t ≠ "" := by
  intro he
  subst he
  revert h
  decide

lemma inv_step {s s' : RepoState} (hInv : Inv s) (hstep : Step s s') :
    Inv s' := by
  obtain ⟨hpos, hall, hpw⟩ := hInv
  cases hstep with
  | createOk v now r h =>
    obtain ⟨t, _, hne, hr, hs'⟩ := create_review_ok_elim h
    subst hs'
    refine ⟨by dsimp only; omega, ?_, ?_⟩
    · intro x hx
      rcases List.mem_append.mp hx with hx | hx
      · obtain ⟨h1, h2, h3, h4⟩ := hall x hx
        exact ⟨h1, h2, h3, by dsimp only; omega⟩
      · rw [List.mem_singleton.mp hx, hr]
        refine ⟨text_ne_empty_of_strip t hne, ?_, hpos, by dsimp only; omega⟩
        rcases analyze_mem t with h | h | h <;> simp [sentiments, h]
    · refine List.pairwise_append.mpr ⟨hpw, List.pairwise_singleton _ _, ?_⟩
      intro a ha b hb
      rw [List.mem_singleton.mp hb, hr]
      exact (hall a ha).2.2.2
  | createFail v now e h => exact ⟨hpos, hall, hpw⟩
  | read sentiment => exact ⟨hpos, hall, hpw⟩
  | delete review_id =>
    refine ⟨hpos, ?_, hpw.sublist (List.filter_sublist _)⟩
    intro x hx
    exact hall x (List.mem_filter.mp hx).1

lemma reachable_inv {s : RepoState} (h : Reachable s) : Inv s := by
  induction h with
  | init => exact inv_init
  | step _ hstep ih => exact inv_step ih hstep

lemma pairwise_id_inj {l : List Review}
    (h : l.Pairwise (fun a b => a.id < b.id)) :
    ∀ r ∈ l, ∀ r' ∈ l, r.id = r'.id → r = r' := by
  induction l with
  | nil => simp
  | cons a l ih =>
    rw [List.pairwise_cons] at h
    obtain ⟨ha, hl⟩ := h
    intro r hr r' hr' hid
    rcases List.mem_cons.mp hr with h1 | h1 <;>
      rcases List.mem_cons.mp hr' with h2 | h2
    · rw [h1, h2]
    · rw [h1] at hid
      have := ha r' h2
      exfalso
      omega
    · rw [h2] at hid
      have := ha r h1
      exfalso
      omega
    · exact ih hl r h1 r' h2 hid

/-- Rows listed in strictly ascending id order. -/
def sortedById (l : List Review) : Prop :=
  l.Pairwise (fun a b => a.id < b.id)

lemma string_isEmpty_false {f : String} (hf : f ≠ "") :
    f.isEmpty = false := by
  cases h : f.isEmpty with
  | false => rfl
  | true => exact absurd ((String.isEmpty_iff f).mp h) hf

lemma find_all_eq_nil (s : RepoState) (f : String) (hf : f ≠ "")
    (hnone : ∀ r ∈ s.reviews, r.sentiment ≠ f) :
    find_all (some f) s = [] := by
  simp only [find_all, string_isEmpty_false hf, Bool.false_eq_true,
    if_false]
  rw [List.filter_eq_nil_iff]
  intro r hr
  simp only [beq_iff_eq]
  exact hnone r hr

/-! ### Claim theorems -/

/-- C1: for every non-empty string input the classifier applies a fixed
priority: if the lowercased text contains any negated phrase it returns
`"negative"`; otherwise, if it contains any positive stem it returns
`"positive"`, even when negative stems are also present. -/
theorem analyze_priority (t : String) (_ht : t ≠ "") :
    (containsAny (pyLower t) negative_phrases = true →
      analyze t = "negative") ∧
    (containsAny (pyLower t) negative_phrases = false →
      containsAny (pyLower t) POSITIVE_WORDS = true →
      analyze t = "positive") :=
  ⟨fun h => analyze_of_phrase t h,
   fun hph hpos => analyze_of_positive t hph hpos⟩

/-- C1 witness: `"хорошо плохо"` contains both a positive and a negative
stem and no negated phrase, and classifies as `"positive"`. -/
theorem analyze_priority_witness :
    ("хорошо плохо" : String) ≠ "" ∧
    containsAny (pyLower "хорошо плохо") negative_phrases = false ∧
    containsAny (pyLower "хорошо плохо") POSITIVE_WORDS = true ∧
    containsAny (pyLower "хорошо плохо") NEGATIVE_WORDS = true ∧
    analyze "хорошо плохо" = "positive" :=
  ⟨by decide, by decide, by decide, by decide,
   (analyze_priority "хорошо плохо" (by decide)).2 (by decide) (by decide)⟩

/-- C2: every string accepted by `create_review` is stored verbatim with
the classifier's sentiment, and an unfiltered `get_reviews` on the
resulting state contains that record. -/
theorem create_then_get_roundtrip (t now : String) (s : RepoState)
    (r : Review) (s' : RepoState)
    (h : create_review (.str t) now s = .ok (r, s')) :
    r ∈ get_reviews none s' ∧ r.text = t ∧ r.sentiment = analyze t := by
  obtain ⟨t', ht', hne, hr, hs'⟩ := create_review_ok_elim h
  injection ht' with he
  subst he
  subst hs'
  rw [hr]
  refine ⟨?_, rfl, rfl⟩
  simp only [get_reviews, find_all]
  exact List.mem_append_right _ (List.mem_singleton_self _)

/-- C2 witness: creating `"Хороший товар"` on a fresh store yields the
record `(1, "Хороший товар", "positive")`, visible to `get_reviews`. -/
theorem create_then_get_roundtrip_witness :
    (⟨1, "Хороший товар", "positive", "T0"⟩ : Review) ∈
      get_reviews none ⟨[⟨1, "Хороший товар", "positive", "T0"⟩], 2⟩ ∧
    (⟨1, "Хороший товар", "positive", "T0"⟩ : Review).text =
      "Хороший товар" ∧
    (⟨1, "Хороший товар", "positive", "T0"⟩ : Review).sentiment =
      analyze "Хороший товар" :=
  create_then_get_roundtrip "Хороший товар" "T0" initState
    ⟨1, "Хороший товар", "positive", "T0"⟩
    ⟨[⟨1, "Хороший товар", "positive", "T0"⟩], 2⟩ (by rfl)

/-- C3 counterexample: `"неудобно"` contains the negative stem
`"неудобн"` and no negated phrase, yet the classifier returns
`"positive"` (the negative stem contains the positive stem `"удобн"`),
refuting "for all text containing any negative stem and no
negated-phrase trigger, classify returns negative". -/
theorem negative_stem_cex :
    containsAny (pyLower "неудобно") NEGATIVE_WORDS = true ∧
    containsAny (pyLower "неудобно") negative_phrases = false ∧
    analyze "неудобно" = "positive" :=
  ⟨by decide, by decide, by decide⟩

/-- C3 amended: for all text containing a negative stem, no negated
phrase, and additionally no positive stem, the classifier returns
`"negative"`. -/
theorem analyze_negative_stem_amended (t : String)
    (hph : containsAny (pyLower t) negative_phrases = false)
    (hpos : containsAny (pyLower t) POSITIVE_WORDS = false)
    (hneg : containsAny (pyLower t) NEGATIVE_WORDS = true) :
    analyze t = "negative" :=
  analyze_of_negative t hph hpos hneg

/-- C3 amended witness: `"плохо"` has a negative stem, no positive stem
and no negated phrase, and classifies as `"negative"`. -/
theorem analyze_negative_stem_amended_witness :
    analyze "плохо" = "negative" :=
  analyze_negative_stem_amended "плохо" (by decide) (by decide) (by decide)

/-- C4: `create_review` fails (with the ValueError message) exactly when
the input is not a string or strips to the empty string; on success the
created review stores the text verbatim and the classifier's result. -/
theorem create_review_validation (v : PyVal) (now : String)
    (s : RepoState) :
    ((∃ e, create_review v now s = .error e) ↔
      v = .nonStr ∨ ∃ t, v = .str t ∧ (pyStrip t.data).isEmpty = true) ∧
    (∀ t r s', v = .str t → create_review v now s = .ok (r, s') →
      r.text = t ∧ r.sentiment = analyze t) := by
  constructor
  · constructor
    · rintro ⟨e, he⟩
      cases v with
      | nonStr => exact Or.inl rfl
      | str t =>
        refine Or.inr ⟨t, rfl, ?_⟩
        cases hs : (pyStrip t.data).isEmpty with
        | true => rfl
        | false => simp [create_review, hs] at he
    · intro h
      rcases h with h | ⟨t, hv, hs⟩
      · subst h
        exact ⟨"Text must be a non-empty string", rfl⟩
      · subst hv
        exact ⟨"Text must be a non-empty string", by simp [create_review, hs]⟩
  · intro t r s' hv h
    subst hv
    obtain ⟨t', ht', hne, hr, _⟩ := create_review_ok_elim h
    injection ht' with he
    subst he
    rw [hr]
    exact ⟨rfl, rfl⟩

/-- C4 witness: on input `"хорошо"` the service succeeds and the stored
record carries the text verbatim and the classifier's sentiment. -/
theorem create_review_validation_witness :
    (⟨1, "хорошо", "positive", "T0"⟩ : Review).text = "хорошо" ∧
    (⟨1, "хорошо", "positive", "T0"⟩ : Review).sentiment =
      analyze "хорошо" :=
  (create_review_validation (.str "хорошо") "T0" initState).2 "хорошо"
    ⟨1, "хорошо", "positive", "T0"⟩ ⟨[⟨1, "хорошо", "positive", "T0"⟩], 2⟩
    rfl (by rfl)

/-- C5 counterexample: `""` is a string outside the sentiment
enumeration, yet on a reachable one-review store `get_reviews (some "")`
returns the full table, not the empty list — the empty string is falsy
in Python, so it is never passed through to the SQL equality filter. -/
theorem empty_filter_cex :
    Reachable ⟨[⟨1, "хорошо", "positive", "T0"⟩], 2⟩ ∧
    "" ∉ sentiments ∧
    get_reviews (some "") ⟨[⟨1, "хорошо", "positive", "T0"⟩], 2⟩ =
      [⟨1, "хорошо", "positive", "T0"⟩] :=
  ⟨Reachable.step Reachable.init
    (Step.createOk (.str "хорошо") "T0" ⟨1, "хорошо", "positive", "T0"⟩
      (by rfl)),
   by decide, by decide⟩

/-- C5 amended: on reachable states, a NON-EMPTY filter string returns
only records whose stored sentiment equals it, and a non-empty string
outside the enumeration matches nothing; the empty string is falsy in
Python and is treated as no filter (see C10). -/
theorem get_reviews_filter_amended (s : RepoState) (h : Reachable s)
    (f : String) :
    (f ≠ "" → ∀ r ∈ get_reviews (some f) s, r.sentiment = f) ∧
    (f ≠ "" → f ∉ sentiments → get_reviews (some f) s = []) := by
  obtain ⟨_, hall, _⟩ := reachable_inv h
  constructor
  · intro hf r hr
    simp only [get_reviews, find_all, string_isEmpty_false hf,
      Bool.false_eq_true, if_false] at hr
    exact beq_iff_eq.mp (List.mem_filter.mp hr).2
  · intro hf hfs
    refine find_all_eq_nil s f hf ?_
    intro r hr he
    exact hfs (he ▸ (hall r hr).2.1)

/-- C5 witness: on the reachable one-review store, the unrecognized
non-empty filter `"weird"` matches nothing. -/
theorem get_reviews_filter_amended_witness :
    get_reviews (some "weird") ⟨[⟨1, "хорошо", "positive", "T0"⟩], 2⟩ =
      [] :=
  (get_reviews_filter_amended ⟨[⟨1, "хорошо", "positive", "T0"⟩], 2⟩
    (Reachable.step Reachable.init
      (Step.createOk (.str "хорошо") "T0" ⟨1, "хорошо", "positive", "T0"⟩
        (by rfl)))
    "weird").2 (by decide) (by decide)

/-- C6: the store delete returns `true` exactly when a row with the
given id exists, a repeated delete of the same id returns `false`, a
delete right after a create of that id returns `true`, and absence is a
normal `false` return, never an error. -/
theorem delete_review_spec (review_id : Int) (s : RepoState) :
    ((delete_review review_id s).1 = true ↔
      ∃ r ∈ s.reviews, r.id = review_id) ∧
    (delete_review review_id (delete_review review_id s).2).1 = false ∧
    (∀ v now r s', create_review v now s = .ok (r, s') →
      (delete_review r.id s').1 = true) := by
  refine ⟨?_, ?_, ?_⟩
  · simp [delete_review, repo_delete, List.any_eq_true, beq_iff_eq]
  · rw [Bool.eq_false_iff]
    intro hcon
    obtain ⟨r, hr, hid⟩ :=
      List.any_eq_true.mp hcon
    have hmem := List.mem_filter.mp hr
    rw [hid] at hmem
    simp at hmem
  · intro v now r s' h
    obtain ⟨t, _, _, hr, hs'⟩ := create_review_ok_elim h
    subst hs'
    simp only [delete_review, repo_delete, List.any_eq_true]
    exact ⟨r, List.mem_append_right _ (List.mem_singleton_self r),
      beq_self_eq_true _⟩

/-- C6 witness: deleting id 5 twice on a fresh store yields `false` the
second time, and deleting the id just created yields `true`. -/
theorem delete_review_spec_witness :
    (delete_review 5 (delete_review 5 initState).2).1 = false ∧
    (delete_review (1 : Int)
      ⟨[⟨1, "хорошо", "positive", "T0"⟩], 2⟩).1 = true :=
  ⟨(delete_review_spec 5 initState).2.1,
   (delete_review_spec 5 initState).2.2 (.str "хорошо") "T0"
     ⟨1, "хорошо", "positive", "T0"⟩ ⟨[⟨1, "хорошо", "positive", "T0"⟩], 2⟩
     (by rfl)⟩

/-- C7 counterexample: `ReviewService.delete_review` performs no
validation — for the non-positive id 0 it does not fail but returns the
store's normal `false` result, refuting "the Service operation fails
with a ValidationError for every id that is not a positive integer". -/
theorem service_delete_no_validation_cex :
    delete_review 0 initState = (false, initState) := rfl

/-- C7 amended: the id validation lives in the HTTP route handler, not
the Service: for `id <= 0` the route answers 400 without touching the
store; for positive ids it delegates and maps the Service's boolean to
200/404, the Service itself simply returning the store's boolean. -/
theorem route_delete_validation_amended (review_id : Int)
    (s : RepoState) :
    (review_id ≤ 0 → route_delete_review review_id s = (400, s)) ∧
    (0 < review_id →
      route_delete_review review_id s =
        ((if (delete_review review_id s).1 then 200 else 404),
          (delete_review review_id s).2)) ∧
    delete_review review_id s = repo_delete review_id s := by
  refine ⟨?_, ?_, rfl⟩
  · intro h
    simp [route_delete_review, h]
  · intro h
    have hnot : ¬ review_id ≤ 0 := by omega
    simp only [route_delete_review, hnot, if_false]
    split <;> rfl

/-- C7 amended witness: id 0 gets a 400 with the store untouched; id 7
is delegated to the store. -/
theorem route_delete_validation_amended_witness :
    route_delete_review 0 initState = (400, initState) ∧
    route_delete_review 7 initState =
      ((if (delete_review 7 initState).1 then 200 else 404),
        (delete_review 7 initState).2) :=
  ⟨(route_delete_validation_amended 0 initState).1 (by norm_num),
   (route_delete_validation_amended 7 initState).2.1 (by norm_num)⟩

/-- C8: on every reachable state, `find_all` returns rows in strictly
ascending id (insertion) order, with or without a filter, and returns
the empty list — not an error — when no row matches a non-empty
filter. -/
theorem find_all_order_spec (s : RepoState) (h : Reachable s)
    (sentiment : Option String) :
    sortedById (find_all sentiment s) ∧
    (∀ f, f ≠ "" → (∀ r ∈ s.reviews, r.sentiment ≠ f) →
      find_all (some f) s = []) := by
  obtain ⟨_, _, hpw⟩ := reachable_inv h
  constructor
  · cases sentiment with
    | none => exact hpw
    | some f =>
      simp only [sortedById, find_all]
      split
      · exact hpw
      · exact hpw.sublist (List.filter_sublist _)
  · intro f hf hnone
    exact find_all_eq_nil s f hf hnone

/-- C8 witness: on the reachable one-review store the filtered listing
is id-sorted and an unmatched filter yields the empty list. -/
theorem find_all_order_spec_witness :
    sortedById
      (find_all (some "positive")
        ⟨[⟨1, "хорошо", "positive", "T0"⟩], 2⟩) ∧
    find_all (some "negative") ⟨[⟨1, "хорошо", "positive", "T0"⟩], 2⟩ =
      [] := by
  have h := find_all_order_spec ⟨[⟨1, "хорошо", "positive", "T0"⟩], 2⟩
    (Reachable.step Reachable.init
      (Step.createOk (.str "хорошо") "T0" ⟨1, "хорошо", "positive", "T0"⟩
        (by rfl)))
    (some "positive")
  exact ⟨h.1, h.2 "negative" (by decide) (by decide)⟩

/-- C9: on every reachable state, every persisted review has non-empty
text and an enumerated sentiment, and no service operation changes the
fields of a record that survives it (records are only appended by create
and removed by delete). -/
theorem service_invariants (s : RepoState) (h : Reachable s) :
    (∀ r ∈ s.reviews, r.text ≠ "" ∧ r.sentiment ∈ sentiments) ∧
    (∀ s', Step s s' → ∀ r ∈ s.reviews, ∀ r' ∈ s'.reviews,
      r.id = r'.id → r = r') := by
  obtain ⟨hpos, hall, hpw⟩ := reachable_inv h
  constructor
  · intro r hr
    exact ⟨(hall r hr).1, (hall r hr).2.1⟩
  · intro s' hstep r hr r' hr' hid
    cases hstep with
    | createOk v now r₀ hcr =>
      obtain ⟨t, _, hne, hr₀, hs'⟩ := create_review_ok_elim hcr
      subst hs'
      dsimp only at hr'
      rcases List.mem_append.mp hr' with h' | h'
      · exact pairwise_id_inj hpw r hr r' h' hid
      · exfalso
        rw [List.mem_singleton.mp h', hr₀] at hid
        dsimp only at hid
        have := (hall r hr).2.2.2
        omega
    | createFail v now e hcr => exact pairwise_id_inj hpw r hr r' hr' hid
    | read sent => exact pairwise_id_inj hpw r hr r' hr' hid
    | delete did =>
      have h'' : r' ∈ s.reviews := by
        simp only [delete_review, repo_delete] at hr'
        exact (List.mem_filter.mp hr').1
      exact pairwise_id_inj hpw r hr r' h'' hid

/-- C9 witness: the record created on the fresh store has non-empty text
and an enumerated sentiment. -/
theorem service_invariants_witness :
    (⟨1, "хорошо", "positive", "T0"⟩ : Review).text ≠ "" ∧
    (⟨1, "хорошо", "positive", "T0"⟩ : Review).sentiment ∈ sentiments :=
  (service_invariants ⟨[⟨1, "хорошо", "positive", "T0"⟩], 2⟩
    (Reachable.step Reachable.init
      (Step.createOk (.str "хорошо") "T0" ⟨1, "хорошо", "positive", "T0"⟩
        (by rfl)))).1
    ⟨1, "хорошо", "positive", "T0"⟩ (List.mem_singleton_self _)

/-- C10: the empty-string filter is falsy in Python, so
`get_reviews (some "")` never adds the WHERE clause: it returns the
whole table, exactly like the no-filter call. -/
theorem empty_filter_returns_all (s : RepoState) :
    get_reviews (some "") s = s.reviews ∧
    get_reviews (some "") s = get_reviews none s := by
  have he : ("" : String).isEmpty = true := rfl
  constructor <;> simp [get_reviews, find_all, he]

end App
